import Mathlib

/-
Verification development for the HelixKit reactive UI runtime.

The definitions below are shallow embeddings of the core modules:
* the reactivity graph (`src/core/reactivity.ts`): signals, effects, the
  current-effect tracking slot, and the write path that schedules
  notification tasks;
* the value-resolution logic of a signal writer (the `typeof` check on the
  argument of `write`);
* the task scheduler (`src/core/scheduler.ts`): three priority queues,
  FIFO draining with a per-frame time budget and per-task error catching;
* the reconciler (`src/core/diff.ts`, `src/core/component.ts`,
  `src/core/render.ts`): elements, the DOM model with a mutation trace,
  `diff`, `createDOMNode`, `updateDOMProps`, `updateChildren`, and the
  separate `mount`/`unmount` pair of `render.ts`.

Theorems about the claims follow after all definitions.
-/

namespace Helix

/-! ## Reactivity graph (reactivity.ts)

Signals are identified by their index into `values`/`subscribers`; effects
are identified by a numeric handle into a `bodies` environment.  A JS
`Set<() => void>` of subscribers keeps insertion order and ignores
duplicate insertions, so it is modelled as a duplicate-free `List Nat`.
`queue` is the scheduler's NORMAL queue restricted to the notification
closures created by signal writes (reactivity.ts line 51): every write
schedules at `Priority.NORMAL`, and with only NORMAL tasks present the
scheduler drains them in FIFO order.  `runs` instruments how many times
each effect body (`fn`) has been invoked. -/

structure RxState where
  values : List Nat
  subscribers : List (List Nat)
  queue : List Nat
  runs : List Nat

def getVal (st : RxState) (s : Nat) : Nat := st.values.getD s 0

def getSubs (st : RxState) (s : Nat) : List Nat := st.subscribers.getD s []

def getRuns (st : RxState) (e : Nat) : Nat := st.runs.getD e 0

/-- Effect bodies, deep-embedded: a body is a finite program that reads
signals (the continuation may depend on the value read, which models
conditional reads) and writes plain values to signals.  This is the shape
of the `fn` closures passed to `createEffect`. -/
inductive Body where
  | done : Body
  | read : Nat → (Nat → Body) → Body
  | write : Nat → Nat → Body → Body

/-- Signal read while effect `e` is the current effect (reactivity.ts
27-33): `if (currentEffect) signal.subscribers.add(currentEffect)`.
A JS `Set.add` is a no-op when the element is already present. -/
def addSub (st : RxState) (s e : Nat) : RxState :=
  if e ∈ getSubs st s then st
  else { st with subscribers := st.subscribers.set s (getSubs st s ++ [e]) }

/-- Signal write with an already-resolved plain value (reactivity.ts
36-59): if the resolved value differs from the stored one, store it and
schedule one notification task at NORMAL priority.  The task closure
captures the signal, so the queue records the signal id; the subscriber
set is only consulted when the task executes. -/
def writeSignal (st : RxState) (s v : Nat) : RxState :=
  if getVal st s ≠ v then
    { st with values := st.values.set s v, queue := st.queue ++ [s] }
  else st

/-- Runs an effect body with effect `e` installed as `currentEffect`:
every `read` first registers `e` as a subscriber of the signal, then
continues with the value read. -/
def runBody (e : Nat) : RxState → Body → RxState
  | st, .done => st
  | st, .read s k =>
      let st2 := addSub st s e
      runBody e st2 (k (getVal st2 s))
  | st, .write s v b => runBody e (writeSignal st s v) b

/-- One invocation of the wrapped effect closure (reactivity.ts 68-76):
sets `currentEffect`, runs `fn` (counted in `runs`), restores
`currentEffect` to null. -/
def runEffect (bodies : Nat → Body) (st : RxState) (e : Nat) : RxState :=
  runBody e { st with runs := st.runs.set e (getRuns st e + 1) } (bodies e)

/-- createEffect (reactivity.ts 67-83): runs the wrapped effect once
immediately, and returns that same wrapped effect as the "cleanup
function" (`return effect`), so invoking the returned value is another
`runEffect`.  Nothing is ever removed from any subscriber set. -/
def createEffect (bodies : Nat → Body) (st : RxState) (e : Nat) :
    RxState × (RxState → RxState) :=
  (runEffect bodies st e, fun st2 => runEffect bodies st2 e)

/-- The notification task scheduled by a write (reactivity.ts 51-57):
copy the signal's subscriber set, then invoke every subscriber. -/
def notifyTask (bodies : Nat → Body) (st : RxState) (s : Nat) : RxState :=
  (getSubs st s).foldl (runEffect bodies) st

/-- Drains the queue of pending notification tasks in FIFO order.  The
fuel bounds the number of tasks processed (effect bodies may write and
hence enqueue further tasks). -/
def drain (bodies : Nat → Body) : Nat → RxState → RxState
  | 0, st => st
  | fuel + 1, st =>
      match st.queue with
      | [] => st
      | s :: rest => drain bodies fuel (notifyTask bodies { st with queue := rest } s)

/-- A body that reads a fixed list of signals in order, ignoring the
values read. -/
def readsList : List Nat → Body
  | [] => .done
  | s :: r => .read s (fun _ => readsList r)

/-- Initial reactive state with the given signal values, no subscribers,
an empty queue, and one effect (id 0) that has never run. -/
def initRx (vs : List Nat) : RxState :=
  { values := vs, subscribers := List.replicate vs.length [], queue := [], runs := [0] }

/-- Applies a list of writes (signal, new value) in order, all within one
synchronous turn (no drain in between). -/
def applyWrites (st : RxState) (ws : List (Nat × Nat)) : RxState :=
  ws.foldl (fun a p => writeSignal a p.1 p.2) st

/-- Decides that every write in the list finds a stored value different
from the value written, at the moment it executes. -/
def allChanging (st : RxState) : List (Nat × Nat) → Bool
  | [] => true
  | (s, v) :: rest =>
      decide (getVal st s ≠ v) && allChanging (writeSignal st s v) rest

/-! ## Signal writer value resolution (reactivity.ts 36-44)

The writer does `typeof newValue === 'function' ? newValue(prev) :
newValue`.  JS values passed to a writer are modelled by `JSVal`:
primitives, or function values carrying a small description that can be
applied.  Equality on primitives models the `!==` changed check; two
structurally distinct functions are unequal, as distinct function
references are in JS. -/

mutual
inductive JSVal where
  | prim : Int → JSVal
  | vfun : FnD → JSVal
deriving DecidableEq
inductive FnD where
  | constD : JSVal → FnD
  | identD : FnD
deriving DecidableEq
end

/-- Applies a function description to an argument. -/
def evalFn : FnD → JSVal → JSVal
  | .constD v, _ => v
  | .identD, x => x

/-- The `typeof v === 'function'` test. -/
def JSVal.isFunction : JSVal → Bool
  | .vfun _ => true
  | .prim _ => false

/-- Resolution of the writer argument (reactivity.ts 37-40): a function
argument is applied to the previous value, anything else is taken as is. -/
def resolveWrite (newValue prev : JSVal) : JSVal :=
  match newValue with
  | .vfun f => evalFn f prev
  | v => v

/-- Full write outcome on a stored value (reactivity.ts 36-59): the
resolved value, paired with whether it was stored and subscribers were
scheduled (`signal.value !== resolvedValue`). -/
def signalWrite (prev newValue : JSVal) : JSVal × Bool :=
  let resolved := resolveWrite newValue prev
  if resolved ≠ prev then (resolved, true) else (prev, false)

/-! ## Task scheduler (scheduler.ts)

Tasks carry a process-unique increasing id and a callback handle; a
callback's behaviour is given by an environment `throws : Nat → Bool`
telling whether invoking it raises.  The per-frame time budget
(`performance.now() >= currentFrameDeadline`) is modelled by an oracle
`deadline : Nat → Bool` consulted once per budget check, indexed by the
number of checks made so far. -/

inductive Priority where
  | HIGH : Priority
  | NORMAL : Priority
  | LOW : Priority
deriving DecidableEq

structure Task where
  id : Nat
  callback : Nat
  priority : Priority
deriving DecidableEq

/-- The scheduler state: `nextTaskId` and the three queues
`taskQueue[HIGH]`, `taskQueue[NORMAL]`, `taskQueue[LOW]`. -/
structure SchedState where
  nextTaskId : Nat
  high : List Task
  normal : List Task
  low : List Task
deriving DecidableEq

/-- scheduleTask (scheduler.ts 354-375): allocate the id, append the task
to the queue matching its priority, and return the id.  The
`isScheduled` arming decides only when `processTaskQueue` runs, which the
drain functions below model directly. -/
def scheduleTask (st : SchedState) (callback : Nat) (priority : Priority) :
    Nat × SchedState :=
  let t : Task := { id := st.nextTaskId, callback := callback, priority := priority }
  let st2 :=
    match priority with
    | .HIGH => { st with high := st.high ++ [t] }
    | .NORMAL => { st with normal := st.normal ++ [t] }
    | .LOW => { st with low := st.low ++ [t] }
  (t.id, { st2 with nextTaskId := st.nextTaskId + 1 })

/-- The empty scheduler (scheduler.ts 341-344): ids start at 1. -/
def initSched : SchedState :=
  { nextTaskId := 1, high := [], normal := [], low := [] }

/-- Schedules a list of (callback, priority) pairs in the given
interleaved order. -/
def scheduleAll (st : SchedState) : List (Nat × Priority) → SchedState
  | [] => st
  | (cb, p) :: rest => scheduleAll (scheduleTask st cb p).2 rest

/-- Result of running one priority tier inside `processTaskQueue`. -/
structure TierRun where
  executed : List Task
  reported : List Task
  remaining : List Task
  checksUsed : Nat
  interrupted : Bool
deriving DecidableEq

/-- One tier of the drain loop (scheduler.ts 403-425): while the queue is
non-empty, for the NORMAL/LOW tiers (`check = true`) first consult the
time budget and, if exhausted, stop and leave the rest queued for a
continuation; otherwise shift the first task and run its callback inside
try/catch, reporting an error if it throws and always continuing. -/
def runTier (throws : Nat → Bool) (deadline : Nat → Bool) (check : Bool) :
    Nat → List Task → TierRun
  | k, [] => ⟨[], [], [], k, false⟩
  | k, t :: rest =>
      if check && deadline k then ⟨[], [], t :: rest, k + 1, true⟩
      else
        let r := runTier throws deadline check (if check then k + 1 else k) rest
        ⟨t :: r.executed,
         (if throws t.callback then [t] else []) ++ r.reported,
         r.remaining, r.checksUsed, r.interrupted⟩

/-- processTaskQueue (scheduler.ts 394-427): run the HIGH queue to
completion with no budget check, then NORMAL and LOW under the rolling
budget; on budget exhaustion stop, leaving the remaining queues for a
re-armed continuation.  Returns executed tasks, reported (thrown) tasks,
the remaining state, the next oracle index and whether a continuation was
armed. -/
def processTaskQueue (throws deadline : Nat → Bool) (k : Nat) (st : SchedState) :
    List Task × List Task × SchedState × Nat × Bool :=
  let hR := runTier throws deadline false k st.high
  let nR := runTier throws deadline true hR.checksUsed st.normal
  if nR.interrupted then
    (hR.executed ++ nR.executed, hR.reported ++ nR.reported,
     { st with high := hR.remaining, normal := nR.remaining },
     nR.checksUsed, true)
  else
    let lR := runTier throws deadline true nR.checksUsed st.low
    (hR.executed ++ nR.executed ++ lR.executed,
     hR.reported ++ nR.reported ++ lR.reported,
     { st with high := hR.remaining, normal := nR.remaining, low := lR.remaining },
     lR.checksUsed, lR.interrupted)

/-- A drain together with every re-armed continuation (each continuation
gets a fresh frame deadline; the shared oracle index keeps consultations
distinct).  `fuel` bounds the number of continuations. -/
def drainAll (throws deadline : Nat → Bool) : Nat → Nat → SchedState →
    List Task × List Task × SchedState
  | 0, _, st => ([], [], st)
  | fuel + 1, k, st =>
      let r := processTaskQueue throws deadline k st
      if r.2.2.2.2 then
        let r2 := drainAll throws deadline fuel r.2.2.2.1 r.2.2.1
        (r.1 ++ r2.1, r.2.1 ++ r2.2.1, r2.2.2)
      else (r.1, r.2.1, r.2.2.1)

/-- All three queues drained empty. -/
def queuesEmpty (st : SchedState) : Prop :=
  st.high = [] ∧ st.normal = [] ∧ st.low = []

/-- The queued tasks in drain order: HIGH, then NORMAL, then LOW. -/
def flattenSched (st : SchedState) : List Task :=
  st.high ++ st.normal ++ st.low

/-! ## Reconciler: elements (types.ts, component.ts)

Prop values: primitives, function values (listeners and refs, identified
by a numeric handle, compared by reference), and style objects. -/

inductive PVal where
  | str : String → PVal
  | num : Int → PVal
  | boolv : Bool → PVal
  | nullv : PVal
  | fn : Nat → PVal
  | styleObj : List (String × String) → PVal
deriving DecidableEq

/-- The `typeof value === 'function'` test on prop values. -/
def PVal.isFunctionV : PVal → Bool
  | .fn _ => true
  | _ => false

/-- Element type: an intrinsic tag name, or a component function
identified by a numeric handle (compared by reference in JS; the handle
indexes a component environment). -/
inductive ElType where
  | tag : String → ElType
  | comp : Nat → ElType
deriving DecidableEq

mutual
/-- The Element record of types.ts 5-11: type, props, children, key,
rendered.  (The synthetic `#text` elements built by `updateChildren` also
carry a `value` field; `diff` never reads it, so it is not modelled.) -/
inductive Element where
  | mk : ElType → List (String × PVal) → List Child → Option PVal → Option Element → Element
inductive Child where
  | elem : Element → Child
  | prim : PVal → Child
end

def Element.type : Element → ElType
  | .mk t _ _ _ _ => t

def Element.props : Element → List (String × PVal)
  | .mk _ p _ _ _ => p

def Element.children : Element → List Child
  | .mk _ _ c _ _ => c

def Element.key : Element → Option PVal
  | .mk _ _ _ k _ => k

def Element.rendered : Element → Option Element
  | .mk _ _ _ _ r => r

def Element.withRendered : Element → Option Element → Element
  | .mk t p c k _, r => .mk t p c k r

/-- The `ref` field read by `unmount` (render.ts 167): the Element
interface (types.ts 5-11) has fields type, props, children, key and
rendered only, and `h` (component.ts 752-767) sets exactly those, so
`mounted.element.ref` is always undefined. -/
def Element.refField (_e : Element) : Option Nat := none

/-- First prop with the given name (props objects have unique keys). -/
def propLookup (props : List (String × PVal)) (name : String) : Option PVal :=
  (props.find? (fun p => p.1 == name)).map Prod.snd

/-- Children kept by `h` (component.ts 760-764): `child !== undefined &&
child !== null && child !== false`. -/
def keepChild : Child → Bool
  | .prim .nullv => false
  | .prim (.boolv false) => false
  | _ => true

/-- h (component.ts 752-767): builds an Element, filtering null /
undefined / false out of the (already flattened) children and hoisting
`props.key` onto the element. -/
def h (type : ElType) (props : List (String × PVal)) (children : List Child) : Element :=
  .mk type props (children.filter keepChild) (propLookup props "key") none

/-- JS `String(v)` for the prop values modelled here. -/
def jsString : PVal → String
  | .str s => s
  | .num n => toString n
  | .boolv true => "true"
  | .boolv false => "false"
  | .nullv => "null"
  | .fn _ => "function"
  | .styleObj _ => "[object Object]"

/-- The reconciliation key of a normalized child at index `i`
(diff.ts 679, 696): `child.key != null ? String(child.key) : index key`. -/
def keyOf (e : Element) (i : Nat) : String :=
  match e.key with
  | some v => if v = .nullv then "index:" ++ toString i else jsString v
  | none => "index:" ++ toString i

/-! ## Reconciler: render target (DOM) model

Nodes are numeric ids; `data` carries per-node tag, attributes, attached
listeners and style entries; `kids` carries each element node's ordered
child list.  Every mutating DOM call the reconciler makes is recorded in
a trace. -/

inductive NData where
  | elt : String → List (String × String) → List (String × Nat) → List (String × String) → NData
  | txt : String → NData
deriving DecidableEq

structure Dom where
  next : Nat
  data : List (Nat × NData)
  kids : List (Nat × List Nat)
deriving DecidableEq

inductive MutOp where
  | createElement : Nat → String → MutOp
  | createText : Nat → String → MutOp
  | setAttr : Nat → String → String → MutOp
  | removeAttr : Nat → String → MutOp
  | addListener : Nat → String → Nat → MutOp
  | removeListener : Nat → String → Nat → MutOp
  | setStyle : Nat → String → String → MutOp
  | appendChild : Nat → Nat → MutOp
  | insertBefore : Nat → Nat → Nat → MutOp
  | removeChild : Nat → Nat → MutOp
  | replaceChild : Nat → Nat → Nat → MutOp
  | clearChildren : Nat → MutOp
  | afterLayoutRef : Nat → Nat → MutOp
  | refCall : Nat → Option Nat → MutOp
  | cleanupRun : Nat → MutOp
deriving DecidableEq

structure W where
  dom : Dom
  trace : List MutOp
deriving DecidableEq

def emit (w : W) (op : MutOp) : W :=
  { w with trace := w.trace ++ [op] }

def alGet (l : List (Nat × α)) (k : Nat) : Option α :=
  (l.find? (fun p => p.1 == k)).map Prod.snd

def alSet (l : List (Nat × α)) (k : Nat) (v : α) : List (Nat × α) :=
  l.map (fun p => if p.1 == k then (k, v) else p)

/-- Sets a string-keyed entry in place, or appends it. -/
def sSet (l : List (String × β)) (k : String) (v : β) : List (String × β) :=
  if l.any (fun p => p.1 == k) then l.map (fun p => if p.1 == k then (k, v) else p)
  else l ++ [(k, v)]

def sRemove (l : List (String × β)) (k : String) : List (String × β) :=
  l.filter (fun p => p.1 != k)

def childNodes (d : Dom) (p : Nat) : List Nat :=
  (alGet d.kids p).getD []

def parentOf (d : Dom) (c : Nat) : Option Nat :=
  (d.kids.find? (fun p => p.2.contains c)).map Prod.fst

/-- Removes a node from whatever parent currently holds it (a DOM node
has at most one parent; insertion APIs move the node). -/
def detachNode (d : Dom) (c : Nat) : Dom :=
  { d with kids := d.kids.map (fun p => (p.1, p.2.filter (fun x => x != c))) }

def createElementW (w : W) (tag : String) : Nat × W :=
  let n := w.dom.next
  (n, { dom := { next := n + 1,
                 data := w.dom.data ++ [(n, .elt tag [] [] [])],
                 kids := w.dom.kids ++ [(n, [])] },
        trace := w.trace ++ [.createElement n tag] })

def createTextW (w : W) (s : String) : Nat × W :=
  let n := w.dom.next
  (n, { dom := { next := n + 1,
                 data := w.dom.data ++ [(n, .txt s)],
                 kids := w.dom.kids ++ [(n, [])] },
        trace := w.trace ++ [.createText n s] })

def appendChildW (w : W) (p c : Nat) : W :=
  let d := detachNode w.dom c
  { dom := { d with kids := alSet d.kids p ((childNodes d p) ++ [c]) },
    trace := w.trace ++ [.appendChild p c] }

/-- Inserts `c` before the first occurrence of `ref` (the reconciler only
passes a `ref` taken from the current child list). -/
def insertAt (ref c : Nat) : List Nat → List Nat
  | [] => [c]
  | x :: rest => if x == ref then c :: x :: rest else x :: insertAt ref c rest

def insertBeforeW (w : W) (p c ref : Nat) : W :=
  let d := detachNode w.dom c
  { dom := { d with kids := alSet d.kids p (insertAt ref c (childNodes d p)) },
    trace := w.trace ++ [.insertBefore p c ref] }

def removeChildW (w : W) (p c : Nat) : W :=
  { dom := { w.dom with kids := alSet w.dom.kids p ((childNodes w.dom p).filter (fun x => x != c)) },
    trace := w.trace ++ [.removeChild p c] }

def replaceChildW (w : W) (p newC oldC : Nat) : W :=
  let d := detachNode w.dom newC
  { dom := { d with kids := alSet d.kids p ((childNodes d p).map (fun x => if x == oldC then newC else x)) },
    trace := w.trace ++ [.replaceChild p newC oldC] }

/-- parentNode.textContent = '' (diff.ts 659). -/
def clearChildrenW (w : W) (p : Nat) : W :=
  { dom := { w.dom with kids := alSet w.dom.kids p [] },
    trace := w.trace ++ [.clearChildren p] }

def mapAttrs (f : List (String × String) → List (String × String)) : NData → NData
  | .elt t a ls st => .elt t (f a) ls st
  | n => n

def mapListeners (f : List (String × Nat) → List (String × Nat)) : NData → NData
  | .elt t a ls st => .elt t a (f ls) st
  | n => n

def mapStyles (f : List (String × String) → List (String × String)) : NData → NData
  | .elt t a ls st => .elt t a ls (f st)
  | n => n

def updData (w : W) (n : Nat) (f : NData → NData) : W :=
  { w with dom := { w.dom with data := w.dom.data.map (fun p => if p.1 == n then (p.1, f p.2) else p) } }

def setAttrW (w : W) (n : Nat) (name v : String) : W :=
  emit (updData w n (mapAttrs (fun a => sSet a name v))) (.setAttr n name v)

def removeAttrW (w : W) (n : Nat) (name : String) : W :=
  emit (updData w n (mapAttrs (fun a => sRemove a name))) (.removeAttr n name)

/-- addEventListener: a duplicate (event, listener) pair is ignored by the
DOM, but the call is still recorded. -/
def addListenerW (w : W) (n : Nat) (ev : String) (f : Nat) : W :=
  emit (updData w n (mapListeners (fun ls => if ls.contains (ev, f) then ls else ls ++ [(ev, f)])))
    (.addListener n ev f)

def removeListenerW (w : W) (n : Nat) (ev : String) (f : Nat) : W :=
  emit (updData w n (mapListeners (fun ls => ls.filter (fun p => p != (ev, f)))))
    (.removeListener n ev f)

def setStyleW (w : W) (n : Nat) (k v : String) : W :=
  emit (updData w n (mapStyles (fun st => sSet st k v))) (.setStyle n k v)

/-! ## Reconciler: prop updates (diff.ts 570-630) -/

/-- name.slice(2).toLowerCase() for event props (written on the character
list so that it evaluates by kernel reduction). -/
def evName (name : String) : String := .mk ((name.data.drop 2).map Char.toLower)

/-- name.startsWith('on'). -/
def startsOn (name : String) : Bool :=
  match name.data with
  | 'o' :: 'n' :: _ => true
  | _ => false

/-- The removal test `newValue == null || newValue === false` (loose
equality to null also catches undefined, i.e. an absent key). -/
def isNullOrFalse : Option PVal → Bool
  | none => true
  | some .nullv => true
  | some (.boolv false) => true
  | some _ => false

/-- JS truthiness of a prop value, for `if (oldValue)`. -/
def isTruthy : PVal → Bool
  | .str s => decide (s ≠ "")
  | .num n => decide (n ≠ 0)
  | .boolv b => b
  | .nullv => false
  | .fn _ => true
  | .styleObj _ => true

/-- JS Set iteration order: first insertion wins, duplicates ignored. -/
def jsSetOf (l : List String) : List String :=
  l.foldl (fun acc x => if x ∈ acc then acc else acc ++ [x]) []

/-- One key of the `for (const name of allProps)` loop in updateDOMProps
(diff.ts 580-621), translated branch for branch. -/
def updateProp (w : W) (node : Nat) (oldP newP : List (String × PVal)) (name : String) : W :=
  if name == "children" || name == "key" || name == "ref" then w
  else
    let oldValue := propLookup oldP name
    let newValue := propLookup newP name
    if isNullOrFalse newValue then
      if startsOn name then
        match oldValue with
        | some (.fn g) => removeListenerW w node (evName name) g
        | _ => w
      else removeAttrW w node name
    else
      match newValue with
      | some (.styleObj entries) =>
          if name == "style" then
            entries.foldl (fun a p => setStyleW a node p.1 p.2) w
          else setAttrW w node name "[object Object]"
      | some (.fn f) =>
          if startsOn name then
            let w2 :=
              match oldValue with
              | some (.fn g) => removeListenerW w node (evName name) g
              | some ov => if isTruthy ov then w else w
              | none => w
            addListenerW w2 node (evName name) f
          else setAttrW w node name (jsString (.fn f))
      | some (.boolv true) => setAttrW w node name ""
      | some v => setAttrW w node name (jsString v)
      | none => w

/-- updateDOMProps (diff.ts 570-630): iterate the union of old and new
prop keys, then schedule any function-valued `ref` via afterLayout. -/
def updateDOMProps (w : W) (node : Nat) (oldP newP : List (String × PVal)) : W :=
  let w2 := (jsSetOf (oldP.map Prod.fst ++ newP.map Prod.fst)).foldl
    (fun a nm => updateProp a node oldP newP nm) w
  match propLookup newP "ref" with
  | some (.fn f) => emit w2 (.afterLayoutRef f node)
  | _ => w2

/-! ## Reconciler: diff (diff.ts 446-741)

Component functions are supplied as an environment `comps` from the
numeric handle and the props to the rendered Element.  Every function
takes fuel (component invocation can recurse unboundedly in the source);
`none` means the source would not have terminated (or would have crashed
on a malformed input, noted inline). -/

/-- The type mismatch test of diff (diff.ts 477-481):
`typeof old.type !== typeof new.type || (typeof old.type === 'string' &&
old.type !== new.type)`.  Two tags compare by name; any two component
functions have equal typeof and are not strings, so they never mismatch. -/
def differentTypes : ElType → ElType → Bool
  | .tag a, .tag b => a != b
  | .comp _, .comp _ => false
  | _, _ => true

/-- Normalization of a child for keyed reconciliation (diff.ts 663-674):
objects pass through, primitives are wrapped as synthetic `#text`
elements.  A null child has `typeof null === 'object'`, passes through
unwrapped, and the later `child.key` access crashes: modelled as `none`. -/
def normChild : Child → Option Element
  | .elem e => some e
  | .prim .nullv => none
  | .prim _ => some (.mk (.tag "#text") [] [] none none)

structure KInfo where
  element : Element
  index : Nat
  node : Option Nat

/-- JS Map.set: overwrite in place, or append preserving insertion order. -/
def mapSet (m : List (String × KInfo)) (k : String) (v : KInfo) : List (String × KInfo) :=
  if m.any (fun p => p.1 == k) then m.map (fun p => if p.1 == k then (k, v) else p)
  else m ++ [(k, v)]

def mapGet (m : List (String × KInfo)) (k : String) : Option KInfo :=
  (m.find? (fun p => p.1 == k)).map Prod.snd

/-- Builds the old-children lookup (diff.ts 677-685): key maps to the old
element, its index, and `parentNode.childNodes[i]` captured before any
mutation. -/
def buildKeyMap (kids : List Nat) : List Element → Nat → List (String × KInfo) → List (String × KInfo)
  | [], _, m => m
  | e :: rest, i, m => buildKeyMap kids rest (i + 1) (mapSet m (keyOf e i) ⟨e, i, kids.get? i⟩)

/-- Writes a diffed/mounted normalized element back to the child list:
element children are shared by reference so their mutations persist;
primitive children were wrapped in fresh synthetic objects whose
mutations are dropped. -/
def updateBack (c : Child) (upd : Option Element) : Child :=
  match c, upd with
  | .elem _, some e => .elem e
  | c2, _ => c2

/-- Second pass of updateChildren (diff.ts 721-725): remove every
unvisited old entry still attached to this parent.  An entry whose
captured node was undefined crashes on `.parentNode` in the source. -/
def secondPass (parent : Nat) : List (String × KInfo) → List String → W → Option W
  | [], _, w => some w
  | (k, info) :: rest, processed, w =>
      if k ∈ processed then secondPass parent rest processed w
      else
        match info.node with
        | none => none
        | some nd =>
            let w2 := if parentOf w.dom nd == some parent then removeChildW w parent nd else w
            secondPass parent rest processed w2

/-- Final pass of updateChildren (diff.ts 728-740): walk the new node
list and move any node not already at its position (insertBefore moves,
never remounts). -/
def finalPass (parent : Nat) : List Nat → Nat → W → W
  | [], _, w => w
  | cn :: rest, i, w =>
      match (childNodes w.dom parent).get? i with
      | some cc =>
          if cc == cn then finalPass parent rest (i + 1) w
          else finalPass parent rest (i + 1) (insertBeforeW w parent cn cc)
      | none => finalPass parent rest (i + 1) (appendChildW w parent cn)

mutual

/-- createDOMNode (diff.ts 522-565): components are invoked and their
output mounted (caching `rendered`); tags create a node, apply props via
`updateDOMProps(node, {}, props)`, then append children (primitives as
text nodes).  A synthetic `#text` type reaches `document.createElement`
in the source; the browser error this raises is not modelled. -/
def createDOMNode (comps : Nat → List (String × PVal) → Element) :
    Nat → Element → W → Option (Nat × Element × W)
  | 0, _, _ => none
  | fuel + 1, e, w =>
      match e.type with
      | .comp c =>
          let rendered := comps c e.props
          match createDOMNode comps fuel rendered w with
          | none => none
          | some (n, r2, w2) => some (n, e.withRendered (some r2), w2)
      | .tag t =>
          let nw := createElementW w t
          let w2 := updateDOMProps nw.2 nw.1 [] e.props
          match mountKids comps fuel nw.1 e.children [] w2 with
          | none => none
          | some (cs2, w3) =>
              some (nw.1, Element.mk (.tag t) e.props cs2 e.key e.rendered, w3)

/-- The child loop of createDOMNode (diff.ts 546-558). -/
def mountKids (comps : Nat → List (String × PVal) → Element) :
    Nat → Nat → List Child → List Child → W → Option (List Child × W)
  | 0, _, _, _, _ => none
  | _ + 1, _, [], acc, w => some (acc, w)
  | fuel + 1, parent, c :: rest, acc, w =>
      match c with
      | .prim .nullv => mountKids comps fuel parent rest (acc ++ [c]) w
      | .prim v =>
          let tw := createTextW w (jsString v)
          mountKids comps fuel parent rest (acc ++ [.prim v]) (appendChildW tw.2 parent tw.1)
      | .elem ce =>
          match createDOMNode comps fuel ce w with
          | none => none
          | some (n, ce2, w2) =>
              mountKids comps fuel parent rest (acc ++ [.elem ce2]) (appendChildW w2 parent n)

/-- diff (diff.ts 446-517).  Returns the patched node (null when removed)
and the new element with its `rendered` caches filled (in-place mutation
in the source). -/
def diff (comps : Nat → List (String × PVal) → Element) :
    Nat → Option Element → Option Element → Nat → W → Option (Option Nat × Option Element × W)
  | 0, _, _, _, _ => none
  | _ + 1, none, none, _, w => some (none, none, w)
  | _ + 1, some _, none, dom, w =>
      match parentOf w.dom dom with
      | some p => some (none, none, removeChildW w p dom)
      | none => some (none, none, w)
  | fuel + 1, none, some n, dom, w =>
      match createDOMNode comps fuel n w with
      | none => none
      | some (nn, n2, w2) =>
          match parentOf w2.dom dom with
          | some p => some (some nn, some n2, removeChildW (insertBeforeW w2 p nn dom) p dom)
          | none => some (some nn, some n2, w2)
  | fuel + 1, some o, some n, dom, w =>
      if differentTypes o.type n.type then
        match createDOMNode comps fuel n w with
        | none => none
        | some (nn, n2, w2) =>
            match parentOf w2.dom dom with
            | some p => some (some nn, some n2, replaceChildW w2 p nn dom)
            | none => some (some nn, some n2, w2)
      else
        match n.type with
        | .comp c =>
            let newRendered := comps c n.props
            match diff comps fuel o.rendered (some newRendered) dom w with
            | none => none
            | some (node, updR, w2) => some (node, some (n.withRendered updR), w2)
        | .tag t =>
            let w2 := updateDOMProps w dom o.props n.props
            match updateChildren comps fuel dom o.children n.children w2 with
            | none => none
            | some (cs2, w3) =>
                some (some dom, some (Element.mk (.tag t) n.props cs2 n.key n.rendered), w3)
termination_by structural fuel => fuel

/-- updateChildren (diff.ts 635-741). -/
def updateChildren (comps : Nat → List (String × PVal) → Element) :
    Nat → Nat → List Child → List Child → W → Option (List Child × W)
  | 0, _, _, _, _ => none
  | fuel + 1, parent, oldC, newC, w =>
      if oldC.isEmpty then appendAll comps fuel parent newC [] w
      else if newC.isEmpty then some ([], clearChildrenW w parent)
      else
        match oldC.mapM normChild with
        | none => none
        | some normOld =>
            let keyMap := buildKeyMap (childNodes w.dom parent) normOld 0 []
            match firstPass comps fuel parent keyMap newC 0 [] [] [] w with
            | none => none
            | some (processed, newNodes, updNew, w2) =>
                match secondPass parent keyMap processed w2 with
                | none => none
                | some w3 => some (updNew, finalPass parent newNodes 0 w3)

/-- The old-children-empty branch of updateChildren (diff.ts 642-655):
append every non-null new child, creating it fresh. -/
def appendAll (comps : Nat → List (String × PVal) → Element) :
    Nat → Nat → List Child → List Child → W → Option (List Child × W)
  | 0, _, _, _, _ => none
  | _ + 1, _, [], acc, w => some (acc, w)
  | fuel + 1, parent, c :: rest, acc, w =>
      match c with
      | .prim .nullv => appendAll comps fuel parent rest (acc ++ [c]) w
      | .prim v =>
          let tw := createTextW w (jsString v)
          appendAll comps fuel parent rest (acc ++ [.prim v]) (appendChildW tw.2 parent tw.1)
      | .elem ce =>
          match createDOMNode comps fuel ce w with
          | none => none
          | some (n, ce2, w2) =>
              appendAll comps fuel parent rest (acc ++ [.elem ce2]) (appendChildW w2 parent n)

/-- First pass of updateChildren (diff.ts 693-718): matched keys diff
against the captured old node, unmatched keys mount fresh; collects the
resulting nodes in new-list order. -/
def firstPass (comps : Nat → List (String × PVal) → Element) :
    Nat → Nat → List (String × KInfo) → List Child → Nat → List String → List Nat →
    List Child → W → Option (List String × List Nat × List Child × W)
  | 0, _, _, _, _, _, _, _, _ => none
  | _ + 1, _, _, [], _, processed, nodes, acc, w => some (processed, nodes, acc, w)
  | fuel + 1, parent, keyMap, c :: rest, i, processed, nodes, acc, w =>
      match normChild c with
      | none => none
      | some nc =>
          let key := keyOf nc i
          match mapGet keyMap key with
          | some info =>
              match info.node with
              | none => none
              | some nd =>
                  match diff comps fuel (some info.element) (some nc) nd w with
                  | none => none
                  | some (resNode, updNc, w2) =>
                      let nodes2 := match resNode with
                        | some rn => nodes ++ [rn]
                        | none => nodes
                      firstPass comps fuel parent keyMap rest (i + 1)
                        (processed ++ [key]) nodes2 (acc ++ [updateBack c updNc]) w2
          | none =>
              match createDOMNode comps fuel nc w with
              | none => none
              | some (rn, updNc, w2) =>
                  firstPass comps fuel parent keyMap rest (i + 1)
                    processed (nodes ++ [rn]) (acc ++ [updateBack c (some updNc)]) w2

end

/-! ## Renderer mount / unmount (render.ts 60-170)

render.ts carries its own mount implementation, distinct from the diff
module's createDOMNode; `render` uses it for the first render of a
container and `diff` for updates. -/

/-- The runtime record returned by mount (types.ts 13-18): element, node,
cleanup callbacks, child records. -/
inductive Mounted where
  | mk : Element → Nat → List Nat → List Mounted → Mounted

def Mounted.element : Mounted → Element
  | .mk e _ _ _ => e

def Mounted.node : Mounted → Nat
  | .mk _ n _ _ => n

def Mounted.cleanup : Mounted → List Nat
  | .mk _ _ c _ => c

def Mounted.childrenM : Mounted → List Mounted
  | .mk _ _ _ ch => ch

/-- One entry of the prop loop in mount (render.ts 85-101), branch for
branch: a function-valued `ref` is invoked synchronously with the node;
style objects are assigned; `on*` functions attach listeners; other
non-null non-false values become attributes. -/
def applyMountProp (w : W) (node : Nat) (name : String) (v : PVal) : W :=
  if name == "ref" && v.isFunctionV then
    match v with
    | .fn f => emit w (.refCall f (some node))
    | _ => w
  else
    match v with
    | .styleObj entries =>
        if name == "style" then entries.foldl (fun a p => setStyleW a node p.1 p.2) w
        else if name != "children" && name != "key" then setAttrW w node name "[object Object]"
        else w
    | .fn f =>
        if startsOn name then addListenerW w node (evName name) f
        else if name != "children" && name != "key" then setAttrW w node name (jsString (.fn f))
        else w
    | .boolv true =>
        if name != "children" && name != "key" then setAttrW w node name "" else w
    | .boolv false => w
    | .nullv => w
    | v2 =>
        if name != "children" && name != "key" then setAttrW w node name (jsString v2) else w

mutual

/-- mount (render.ts 60-145): components are invoked and their output
mounted (the record wraps the child record); tags create the node, apply
props, mount children into it, and append the node to the container
afterwards.  `cleanupFunctions` is created and never filled (render.ts
105). -/
def mountR (comps : Nat → List (String × PVal) → Element) :
    Nat → Element → Option Nat → W → Option (Mounted × W)
  | 0, _, _, _ => none
  | fuel + 1, e, container, w =>
      match e.type with
      | .comp c =>
          match mountR comps fuel (comps c e.props) container w with
          | none => none
          | some (m, w2) => some (Mounted.mk e m.node m.cleanup [m], w2)
      | .tag t =>
          let nw := createElementW w t
          let w2 := e.props.foldl (fun a p => applyMountProp a nw.1 p.1 p.2) nw.2
          match mountRKids comps fuel nw.1 e.children [] w2 with
          | none => none
          | some (cms, w3) =>
              let w4 :=
                match container with
                | some ct => appendChildW w3 ct nw.1
                | none => w3
              some (Mounted.mk e nw.1 [] cms, w4)

/-- The child loop of mount (render.ts 107-119): primitives (including
booleans) become text nodes appended immediately; falsy non-primitive
children (null) are skipped; element children are mounted into the node. -/
def mountRKids (comps : Nat → List (String × PVal) → Element) :
    Nat → Nat → List Child → List Mounted → W → Option (List Mounted × W)
  | 0, _, _, _, _ => none
  | _ + 1, _, [], acc, w => some (acc, w)
  | fuel + 1, parent, c :: rest, acc, w =>
      match c with
      | .prim .nullv => mountRKids comps fuel parent rest acc w
      | .prim v =>
          let tw := createTextW w (jsString v)
          mountRKids comps fuel parent rest acc (appendChildW tw.2 parent tw.1)
      | .elem ce =>
          match mountR comps fuel ce (some parent) w with
          | none => none
          | some (m, w2) => mountRKids comps fuel parent rest (acc ++ [m]) w2

end

mutual

/-- unmount (render.ts 150-170): run recorded cleanups, unmount children,
detach the node, then invoke `mounted.element.ref` with null if it is a
function — which never happens, because that field is never set (see
`Element.refField`). -/
def unmountR : Mounted → W → W
  | .mk e n cl chs, w =>
      let w1 := cl.foldl (fun a c => emit a (.cleanupRun c)) w
      let w2 := unmountList chs w1
      let w3 :=
        match parentOf w2.dom n with
        | some p => removeChildW w2 p n
        | none => w2
      match Element.refField e with
      | some f => emit w3 (.refCall f none)
      | none => w3

def unmountList : List Mounted → W → W
  | [], w => w
  | m :: rest, w => unmountList rest (unmountR m w)

end

/-! ## Concrete claim scenes

Concrete inputs on which the claims are settled.  Worlds are built by
mounting the old tree, then the trace is reset so that it records exactly
the mutations of the diff under scrutiny. -/

def emptyW : W := { dom := { next := 0, data := [], kids := [] }, trace := [] }

def clearTrace (w : W) : W := { w with trace := [] }

/-- Creation operations: a node freshly made for (re)mounting. -/
def isCreateOp : MutOp → Bool
  | .createElement _ _ => true
  | .createText _ _ => true
  | _ => false

/-- A component environment whose every component renders an empty div,
whatever its handle and props; handles are only compared by the diff. -/
def compsDiv : Nat → List (String × PVal) → Element := fun _ _ => h (.tag "div") [] []

/-- C1 scene: one effect reading signals 0 and 1; then both signals are
written in the same synchronous turn and the queue is drained. -/
def bodiesC1 : Nat → Body := fun _ => readsList [0, 1]

def stC1setup : RxState := (createEffect bodiesC1 (initRx [0, 0]) 0).1

def stC1drained : RxState := drain bodiesC1 4 (applyWrites stC1setup [(0, 1), (1, 1)])

/-- C1 general scene: one effect (id 0) whose body reads the signals in
`L`, set up by createEffect over initial values `vs`, followed by the
writes `ws` within one synchronous turn, followed by a full drain. -/
def sceneC1 (L vs : List Nat) (ws : List (Nat × Nat)) : RxState :=
  drain (fun _ => readsList L) ws.length
    (applyWrites (createEffect (fun _ => readsList L) (initRx vs) 0).1 ws)

/-- C2 scene: one effect reading signal 0; the value returned by
createEffect (the claimed disposer) is invoked, then the signal is
written and the queue drained. -/
def bodiesC2 : Nat → Body := fun _ => readsList [0]

def stC2setup : RxState × (RxState → RxState) := createEffect bodiesC2 (initRx [0]) 0

def stC2disposed : RxState := stC2setup.2 stC2setup.1

def stC2after : RxState := drain bodiesC2 2 (writeSignal stC2disposed 0 5)

/-- C3 scene: an effect that reads signal 2 (a flag) and then reads
signal 0 when the flag is 1, signal 1 otherwise; the flag starts at 1, is
written to 0, and the queue is drained so the effect re-runs on the other
branch. -/
def bodiesC3 : Nat → Body := fun _ =>
  .read 2 (fun v => if v = 1 then .read 0 (fun _ => .done) else .read 1 (fun _ => .done))

def stC3setup : RxState := (createEffect bodiesC3 (initRx [0, 0, 1]) 0).1

def stC3after : RxState := drain bodiesC3 2 (writeSignal stC3setup 2 0)

/-- C4 scene: mount an element whose type is component `i`, then diff it
against an element whose type is the distinct component `j`; both
components render an empty div. -/
def diffComps (i j : Nat) : Option (Option Nat × Option Element × W) :=
  match createDOMNode compsDiv 10 (h (.comp i) [] []) emptyW with
  | some (n, oldUpd, w) =>
      diff compsDiv 10 (some oldUpd) (some (h (.comp j) [] [])) n (clearTrace w)
  | none => none

/-- C5 scene: a ul with children keyed a, b, c diffed against the same
children reordered to c, a, b. -/
def li (k : String) : Element := h (.tag "li") [("key", .str k)] []

def ulOld : Element := h (.tag "ul") [] [.elem (li "a"), .elem (li "b"), .elem (li "c")]

def ulNew : Element := h (.tag "ul") [] [.elem (li "c"), .elem (li "a"), .elem (li "b")]

def mountC5 : Option (Nat × Element × W) := createDOMNode compsDiv 20 ulOld emptyW

def diffC5 : Option (Option Nat × Option Element × W) :=
  match mountC5 with
  | some (n, oldUpd, w) => diff compsDiv 20 (some oldUpd) (some ulNew) n (clearTrace w)
  | none => none

/-- C6 scene: a div with an id attribute and a click listener, diffed
against a value-identical element. -/
def divC6 : Element := h (.tag "div") [("id", .str "x"), ("onClick", .fn 5)] []

def diffC6 : Option (Option Nat × Option Element × W) :=
  match createDOMNode compsDiv 10 divC6 emptyW with
  | some (n, oldUpd, w) => diff compsDiv 10 (some oldUpd) (some divC6) n (clearTrace w)
  | none => none

/-- C9 scene: a container (node 0) into which a div carrying a
function-valued ref prop is mounted via render.ts mount, then unmounted;
separately the diff-path updateDOMProps runs on the same props. -/
def containerW : W := (createElementW emptyW "root").2

def refDiv (f : Nat) : Element := h (.tag "div") [("ref", .fn f)] []

def mountC9 (f : Nat) : Option (Mounted × W) :=
  mountR compsDiv 10 (refDiv f) (some 0) (clearTrace containerW)

def unmountC9 (f : Nat) : Option W :=
  (mountC9 f).map (fun r => unmountR r.1 (clearTrace r.2))

def updatePropsC9 (f : Nat) : W :=
  updateDOMProps (clearTrace containerW) 0 [("ref", .fn f)] [("ref", .fn f)]

/-! ## List helper lemmas -/

theorem getD_set_self {α : Type} : ∀ (l : List α) (i : Nat) (x d : α),
    i < l.length → (l.set i x).getD i d = x
  | [], _, _, _, hi => absurd hi (by simp)
  | _ :: _, 0, _, _, _ => rfl
  | _ :: l, i + 1, x, d, hi => getD_set_self l i x d (Nat.lt_of_succ_lt_succ hi)

theorem getD_set_ne {α : Type} : ∀ (l : List α) (i j : Nat) (x d : α),
    i ≠ j → (l.set i x).getD j d = l.getD j d
  | [], _, _, _, _, _ => rfl
  | _ :: _, 0, 0, _, _, hij => absurd rfl hij
  | _ :: _, 0, _ + 1, _, _, _ => rfl
  | _ :: _, _ + 1, 0, _, _, _ => rfl
  | _ :: l, i + 1, j + 1, x, d, hij =>
      getD_set_ne l i j x d (fun e => hij (congrArg Nat.succ e))

theorem set_oob {α : Type} : ∀ (l : List α) (i : Nat) (x : α),
    l.length ≤ i → l.set i x = l
  | [], _, _, _ => rfl
  | _ :: _, 0, _, hi => absurd hi (by simp)
  | a :: l, i + 1, x, hi =>
      congrArg (List.cons a) (set_oob l i x (Nat.le_of_succ_le_succ hi))

theorem getD_replicate_nil : ∀ (n s : Nat),
    (List.replicate n ([] : List Nat)).getD s [] = []
  | 0, _ => rfl
  | _ + 1, 0 => rfl
  | n + 1, s + 1 => getD_replicate_nil n s

/-! ## Reactivity lemmas -/

theorem addSub_values (st : RxState) (s e : Nat) : (addSub st s e).values = st.values := by
  unfold addSub; split <;> rfl

theorem addSub_queue (st : RxState) (s e : Nat) : (addSub st s e).queue = st.queue := by
  unfold addSub; split <;> rfl

theorem addSub_runs (st : RxState) (s e : Nat) : (addSub st s e).runs = st.runs := by
  unfold addSub; split <;> rfl

theorem addSub_sub_length (st : RxState) (s e : Nat) :
    (addSub st s e).subscribers.length = st.subscribers.length := by
  unfold addSub; split
  · rfl
  · simp

theorem addSub_of_mem (st : RxState) (s e : Nat) (hm : e ∈ getSubs st s) :
    addSub st s e = st := by
  unfold addSub; exact if_pos hm

theorem getSubs_addSub_ne (st : RxState) (s e x : Nat) (hx : x ≠ s) :
    getSubs (addSub st s e) x = getSubs st x := by
  unfold addSub; split
  · rfl
  · show (st.subscribers.set s _).getD x [] = _
    exact getD_set_ne _ _ _ _ _ (fun hsx => hx hsx.symm)

/-- Either addSub leaves the set at `x` unchanged, or `x` is the read
signal, the effect was not yet subscribed, and it is appended. -/
theorem getSubs_addSub_cases (st : RxState) (s e x : Nat) :
    getSubs (addSub st s e) x = getSubs st x ∨
      (x = s ∧ e ∉ getSubs st s ∧ getSubs (addSub st s e) x = getSubs st s ++ [e]) := by
  by_cases hx : x = s
  · subst hx
    by_cases hm : e ∈ getSubs st x
    · left; rw [addSub_of_mem st x e hm]
    · by_cases hlen : x < st.subscribers.length
      · right
        refine ⟨rfl, hm, ?_⟩
        unfold addSub
        rw [if_neg hm]
        show (st.subscribers.set x _).getD x [] = _
        exact getD_set_self _ _ _ _ hlen
      · left
        unfold addSub
        rw [if_neg hm]
        show (st.subscribers.set x _).getD x [] = _
        rw [set_oob _ _ _ (Nat.le_of_not_lt hlen)]
        rfl
  · left; exact getSubs_addSub_ne st s e x hx

theorem getSubs_addSub_preserve (st : RxState) (s e x : Nat)
    (hm : getSubs st x = [e]) : getSubs (addSub st s e) x = [e] := by
  rcases getSubs_addSub_cases st s e x with hc | ⟨hxs, hnm, _⟩
  · rw [hc, hm]
  · exact absurd (hxs ▸ hm ▸ List.mem_singleton_self e) hnm

theorem writeSignal_subscribers (st : RxState) (s v : Nat) :
    (writeSignal st s v).subscribers = st.subscribers := by
  unfold writeSignal; split <;> rfl

theorem writeSignal_runs (st : RxState) (s v : Nat) :
    (writeSignal st s v).runs = st.runs := by
  unfold writeSignal; split <;> rfl

theorem writeSignal_queue_of_ne (st : RxState) (s v : Nat) (hne : getVal st s ≠ v) :
    (writeSignal st s v).queue = st.queue ++ [s] := by
  unfold writeSignal; rw [if_pos hne]

theorem applyWrites_subscribers : ∀ (ws : List (Nat × Nat)) (st : RxState),
    (applyWrites st ws).subscribers = st.subscribers
  | [], _ => rfl
  | (s, v) :: rest, st => by
      show (applyWrites (writeSignal st s v) rest).subscribers = _
      rw [applyWrites_subscribers rest, writeSignal_subscribers]

theorem applyWrites_runs : ∀ (ws : List (Nat × Nat)) (st : RxState),
    (applyWrites st ws).runs = st.runs
  | [], _ => rfl
  | (s, v) :: rest, st => by
      show (applyWrites (writeSignal st s v) rest).runs = _
      rw [applyWrites_runs rest, writeSignal_runs]

theorem applyWrites_queue : ∀ (ws : List (Nat × Nat)) (st : RxState),
    allChanging st ws = true →
    (applyWrites st ws).queue = st.queue ++ ws.map Prod.fst
  | [], st, _ => by simp [applyWrites]
  | (s, v) :: rest, st, hch => by
      simp only [allChanging, Bool.and_eq_true, decide_eq_true_eq] at hch
      have h1 : getVal st s ≠ v := hch.1
      have h2 : allChanging (writeSignal st s v) rest = true := hch.2
      show (applyWrites (writeSignal st s v) rest).queue = _
      rw [applyWrites_queue rest _ h2, writeSignal_queue_of_ne st s v h1]
      simp

theorem runBody_readsList_values (e : Nat) : ∀ (L : List Nat) (st : RxState),
    (runBody e st (readsList L)).values = st.values
  | [], _ => rfl
  | s :: r, st => by
      show (runBody e (addSub st s e) (readsList r)).values = _
      rw [runBody_readsList_values e r, addSub_values]

theorem runBody_readsList_queue (e : Nat) : ∀ (L : List Nat) (st : RxState),
    (runBody e st (readsList L)).queue = st.queue
  | [], _ => rfl
  | s :: r, st => by
      show (runBody e (addSub st s e) (readsList r)).queue = _
      rw [runBody_readsList_queue e r, addSub_queue]

theorem runBody_readsList_runs (e : Nat) : ∀ (L : List Nat) (st : RxState),
    (runBody e st (readsList L)).runs = st.runs
  | [], _ => rfl
  | s :: r, st => by
      show (runBody e (addSub st s e) (readsList r)).runs = _
      rw [runBody_readsList_runs e r, addSub_runs]

theorem runBody_readsList_sub_length (e : Nat) : ∀ (L : List Nat) (st : RxState),
    (runBody e st (readsList L)).subscribers.length = st.subscribers.length
  | [], _ => rfl
  | s :: r, st => by
      show (runBody e (addSub st s e) (readsList r)).subscribers.length = _
      rw [runBody_readsList_sub_length e r, addSub_sub_length]

/-- Re-running a reads-only effect that is already subscribed everywhere
it reads leaves the state untouched (Set.add de-duplicates). -/
theorem runBody_readsList_id : ∀ (L : List Nat) (st : RxState) (e : Nat),
    (∀ s ∈ L, e ∈ getSubs st s) → runBody e st (readsList L) = st
  | [], _, _, _ => rfl
  | s :: r, st, e, hm => by
      have h1 : addSub st s e = st := addSub_of_mem _ _ _ (hm s (List.mem_cons_self s r))
      show runBody e (addSub st s e) (readsList r) = st
      rw [h1]
      exact runBody_readsList_id r st e (fun x hx => hm x (List.mem_cons_of_mem s hx))

theorem getSubs_runBody_preserve : ∀ (L : List Nat) (st : RxState) (e x : Nat),
    getSubs st x = [e] → getSubs (runBody e st (readsList L)) x = [e]
  | [], _, _, _, hx => hx
  | s :: r, st, e, x, hx => by
      show getSubs (runBody e (addSub st s e) (readsList r)) x = [e]
      exact getSubs_runBody_preserve r _ e x (getSubs_addSub_preserve st s e x hx)

theorem runBody_subs_invariant : ∀ (L : List Nat) (st : RxState) (e : Nat),
    (∀ x, getSubs st x = [] ∨ getSubs st x = [e]) →
    ∀ x, getSubs (runBody e st (readsList L)) x = [] ∨
      getSubs (runBody e st (readsList L)) x = [e]
  | [], _, _, hpre => hpre
  | s :: r, st, e, hpre => by
      show ∀ x, getSubs (runBody e (addSub st s e) (readsList r)) x = [] ∨ _
      refine runBody_subs_invariant r _ e (fun x => ?_)
      rcases getSubs_addSub_cases st s e x with hc | ⟨hxs, hnm, hc⟩
      · rw [hc]; exact hpre x
      · rw [hc]
        rcases hpre s with hs | hs
        · right; rw [hs]; rfl
        · exact absurd (hs ▸ List.mem_singleton_self e) hnm

/-- Running a reads-only effect from a state where every subscriber set
is empty or exactly this effect subscribes it to every in-range signal it
reads. -/
theorem getSubs_runBody_mem : ∀ (L : List Nat) (st : RxState) (e s : Nat),
    (∀ x, getSubs st x = [] ∨ getSubs st x = [e]) → s ∈ L →
    s < st.subscribers.length →
    getSubs (runBody e st (readsList L)) s = [e]
  | [], _, _, _, _, hmem, _ => absurd hmem (List.not_mem_nil _)
  | a :: r, st, e, s, hpre, hmem, hlen => by
      show getSubs (runBody e (addSub st a e) (readsList r)) s = [e]
      have hpre2 : ∀ x, getSubs (addSub st a e) x = [] ∨ getSubs (addSub st a e) x = [e] := by
        intro x
        rcases getSubs_addSub_cases st a e x with hc | ⟨hxs, hnm, hc⟩
        · rw [hc]; exact hpre x
        · rw [hc]
          rcases hpre a with ha | ha
          · right; rw [ha]; rfl
          · exact absurd (ha ▸ List.mem_singleton_self e) hnm
      rcases List.mem_cons.mp hmem with hsa | hsr
      · subst hsa
        have hself : getSubs (addSub st s e) s = [e] := by
          rcases hpre s with hs | hs
          · unfold addSub
            rw [if_neg (show e ∉ getSubs st s by rw [hs]; exact List.not_mem_nil e)]
            show (st.subscribers.set s _).getD s [] = _
            rw [getD_set_self _ _ _ _ hlen, hs]
            rfl
          · rw [addSub_of_mem st s e (by rw [hs]; exact List.mem_singleton_self e), hs]
        exact getSubs_runBody_preserve r _ e s hself
      · exact getSubs_runBody_mem r _ e s hpre2 hsr
          (by rw [addSub_sub_length]; exact hlen)

/-- Re-running a fully subscribed reads-only effect only bumps its run
counter. -/
theorem runEffect_id (L : List Nat) (st : RxState) (e : Nat)
    (hm : ∀ s ∈ L, e ∈ getSubs st s) :
    runEffect (fun _ => readsList L) st e =
      { st with runs := st.runs.set e (getRuns st e + 1) } := by
  unfold runEffect
  exact runBody_readsList_id L _ e (fun s hs => hm s hs)

/-- Draining a queue of notification tasks whose signals are all
subscribed by exactly effect 0 (with a reads-only body) runs the effect
once per queued task. -/
theorem drain_notify (L : List Nat) : ∀ (q : List Nat) (st : RxState),
    st.queue = q →
    (∀ s ∈ q, getSubs st s = [0]) →
    (∀ s ∈ L, (0 : Nat) ∈ getSubs st s) →
    0 < st.runs.length →
    (drain (fun _ => readsList L) q.length st).queue = [] ∧
      getRuns (drain (fun _ => readsList L) q.length st) 0 = getRuns st 0 + q.length
  | [], st, hq, _, _, _ => by
      constructor
      · show st.queue = []
        exact hq
      · rfl
  | s :: rest, st, hq, hsubs, hL, hr => by
      have hstep : drain (fun _ => readsList L) (s :: rest).length st =
          drain (fun _ => readsList L) rest.length
            (notifyTask (fun _ => readsList L) { st with queue := rest } s) := by
        show (match st.queue with
          | [] => st
          | s2 :: rest2 => drain (fun _ => readsList L) rest.length
              (notifyTask (fun _ => readsList L) { st with queue := rest2 } s2)) = _
        rw [hq]
      have hsub : getSubs st s = [0] := hsubs s (List.mem_cons_self s rest)
      have hnot : notifyTask (fun _ => readsList L) { st with queue := rest } s =
          { st with queue := rest, runs := st.runs.set 0 (getRuns st 0 + 1) } := by
        unfold notifyTask
        show ((getSubs st s).foldl _ _) = _
        rw [hsub]
        exact runEffect_id L { st with queue := rest } 0 (fun x hx => hL x hx)
      rw [hstep, hnot]
      have hlen2 : 0 < (st.runs.set 0 (getRuns st 0 + 1)).length := by
        simpa using hr
      have hrec := drain_notify L rest
        { st with queue := rest, runs := st.runs.set 0 (getRuns st 0 + 1) }
        rfl (fun x hx => hsubs x (List.mem_cons_of_mem s hx)) (fun x hx => hL x hx) hlen2
      refine ⟨hrec.1, ?_⟩
      rw [hrec.2]
      have hg : getRuns { st with queue := rest, runs := st.runs.set 0 (getRuns st 0 + 1) } 0 =
          getRuns st 0 + 1 := by
        show (st.runs.set 0 (getRuns st 0 + 1)).getD 0 0 = _
        exact getD_set_self _ _ _ _ hr
      rw [hg, List.length_cons]
      omega

/-! ## Claims C1, C2, C3, C10 -/

/-- C1, counterexample: one effect subscribed to signals 0 and 1 (one run
at createEffect, so `runs = 1`); both signals are written in the same
synchronous turn; after the drain the effect has run 3 times, i.e. twice
during the drain — once per write, not once.  The claim says it runs
exactly once when the scheduler drains. -/
theorem C1_counterexample :
    getRuns stC1setup 0 = 1 ∧ stC1drained.queue = [] ∧ getRuns stC1drained 0 = 3 := by
  decide

/-- C1 (amended): each value-changing write schedules its own
notification task, so across one synchronous turn a subscribed effect
runs once per value-changing write to a signal it reads — `ws.length`
times for the turn, not once.  Stated for an effect with a fixed read
set `L` over in-range signals and writes that all hit signals in `L`
with changed values. -/
theorem C1_effect_runs_once_per_write (L vs : List Nat) (ws : List (Nat × Nat))
    (hL : ∀ s ∈ L, s < vs.length)
    (hws : ∀ p ∈ ws, p.1 ∈ L)
    (hch : allChanging (createEffect (fun _ => readsList L) (initRx vs) 0).1 ws = true) :
    getRuns (sceneC1 L vs ws) 0 = 1 + ws.length ∧ (sceneC1 L vs ws).queue = [] := by
  have h1subs : ∀ s ∈ L, getSubs (createEffect (fun _ => readsList L) (initRx vs) 0).1 s = [0] := by
    intro s hs
    show getSubs (runBody 0 _ (readsList L)) s = [0]
    apply getSubs_runBody_mem L _ 0 s
    · intro x
      left
      show (List.replicate vs.length []).getD x [] = []
      exact getD_replicate_nil _ _
    · exact hs
    · show s < (List.replicate vs.length ([] : List Nat)).length
      rw [List.length_replicate]
      exact hL s hs
  have h1queue : (createEffect (fun _ => readsList L) (initRx vs) 0).1.queue = [] := by
    show (runBody 0 _ (readsList L)).queue = []
    rw [runBody_readsList_queue]
    rfl
  have h1runs : (createEffect (fun _ => readsList L) (initRx vs) 0).1.runs = [1] := by
    show (runBody 0 _ (readsList L)).runs = [1]
    rw [runBody_readsList_runs]
    rfl
  have h2subs : ∀ s,
      getSubs (applyWrites (createEffect (fun _ => readsList L) (initRx vs) 0).1 ws) s =
      getSubs (createEffect (fun _ => readsList L) (initRx vs) 0).1 s := by
    intro s
    show (applyWrites _ ws).subscribers.getD s [] = _
    rw [applyWrites_subscribers]
    rfl
  have h2queue : (applyWrites (createEffect (fun _ => readsList L) (initRx vs) 0).1 ws).queue =
      ws.map Prod.fst := by
    rw [applyWrites_queue ws _ hch, h1queue]
    rfl
  have h2runs : (applyWrites (createEffect (fun _ => readsList L) (initRx vs) 0).1 ws).runs = [1] := by
    rw [applyWrites_runs, h1runs]
  have hdrain := drain_notify L (ws.map Prod.fst)
    (applyWrites (createEffect (fun _ => readsList L) (initRx vs) 0).1 ws)
    h2queue
    (by
      intro s hs
      rcases List.mem_map.mp hs with ⟨p, hp, hps⟩
      rw [h2subs, ← hps]
      exact h1subs p.1 (hws p hp))
    (by
      intro s hs
      rw [h2subs, h1subs s hs]
      exact List.mem_singleton_self 0)
    (by rw [h2runs]; decide)
  have hlenmap : (ws.map Prod.fst).length = ws.length := List.length_map _ _
  have hruns2 : getRuns (applyWrites (createEffect (fun _ => readsList L) (initRx vs) 0).1 ws) 0 = 1 := by
    show (applyWrites _ ws).runs.getD 0 0 = 1
    rw [h2runs]
    rfl
  constructor
  · show getRuns (drain (fun _ => readsList L) ws.length _) 0 = 1 + ws.length
    rw [← hlenmap, hdrain.2, hruns2]
  · show (drain (fun _ => readsList L) ws.length _).queue = []
    rw [← hlenmap]
    exact hdrain.1

/-- C1 witness: the amended theorem at the concrete counterexample scene
(two signals, two changing writes, effect runs 1 + 2 times). -/
theorem C1_effect_runs_once_per_write_witness :
    getRuns (sceneC1 [0, 1] [0, 0] [(0, 1), (1, 1)]) 0 = 1 + [(0, 1), (1, 1)].length ∧
      (sceneC1 [0, 1] [0, 0] [(0, 1), (1, 1)]).queue = [] :=
  C1_effect_runs_once_per_write [0, 1] [0, 0] [(0, 1), (1, 1)]
    (by decide) (by decide) (by decide)

/-- C2: the value returned by createEffect is the wrapped effect itself,
not a disposer.  Invoking it re-runs `fn` (runs goes from 1 to 2), the
effect stays in signal 0's subscriber set, and a later write plus drain
runs `fn` yet again (runs = 3).  The claim says the returned function
removes the effect from every subscriber set, never re-runs `fn`, and
prevents any later write from running it. -/
theorem C2_returned_function_is_not_a_disposer :
    getRuns stC2disposed 0 = 2 ∧ getSubs stC2disposed 0 = [0] ∧
      getRuns stC2after 0 = 3 ∧ getSubs stC2after 0 = [0] := by
  decide

/-- C3: subscriptions are never cleared on re-run.  The effect reads the
flag (signal 2) and then signal 0 on its first run; after the flag flips
and the effect re-runs reading signal 1 instead, signal 0 still holds the
effect in its subscriber set.  The claim says the subscription set is
entirely rebuilt so that signal 0 no longer holds it. -/
theorem C3_stale_subscription_survives_rerun :
    getSubs stC3setup 0 = [0] ∧ getSubs stC3setup 1 = [] ∧ getSubs stC3setup 2 = [0] ∧
      getSubs stC3after 0 = [0] ∧ getSubs stC3after 1 = [0] ∧ getSubs stC3after 2 = [0] := by
  decide

/-- C10, counterexample: writing the updater `constD (vfun identD)`
(i.e. `prev => (x => x)`) over a stored primitive 0 stores the function
value `x => x` in the signal, refuting the conclusion that no function
value can ever be stored through the writer. -/
theorem C10_counterexample :
    (signalWrite (JSVal.prim 0) (JSVal.vfun (FnD.constD (JSVal.vfun FnD.identD)))).1 =
        JSVal.vfun FnD.identD ∧
      (signalWrite (JSVal.prim 0) (JSVal.vfun (FnD.constD (JSVal.vfun FnD.identD)))).1.isFunction =
        true ∧
      (signalWrite (JSVal.prim 0) (JSVal.vfun (FnD.constD (JSVal.vfun FnD.identD)))).2 = true := by
  decide

/-- C10 (amended): the writer always treats a function argument as an
updater — it resolves to `f(previousValue)`, never stores `f` unapplied —
and a non-function argument resolves to itself; but the resolved value
may itself be a function, so function values can still be stored. -/
theorem C10_updater_always_applied (f : FnD) (n : Int) (prev : JSVal) :
    resolveWrite (JSVal.vfun f) prev = evalFn f prev ∧
      resolveWrite (JSVal.prim n) prev = JSVal.prim n :=
  ⟨rfl, rfl⟩

/-! ## Scheduler lemmas -/

theorem runTier_split (throws deadline : Nat → Bool) (check : Bool) :
    ∀ (k : Nat) (q : List Task),
      (runTier throws deadline check k q).executed ++
        (runTier throws deadline check k q).remaining = q
  | _, [] => rfl
  | k, t :: rest => by
      unfold runTier
      split
      · rfl
      · simp only [List.cons_append]
        exact congrArg (List.cons t) (runTier_split throws deadline check _ rest)

theorem runTier_nocheck_not_interrupted (throws deadline : Nat → Bool) :
    ∀ (k : Nat) (q : List Task),
      (runTier throws deadline false k q).interrupted = false
  | _, [] => rfl
  | k, t :: rest => by
      unfold runTier
      simp only [Bool.false_and, Bool.false_eq_true, if_false]
      exact runTier_nocheck_not_interrupted throws deadline k rest

theorem runTier_not_interrupted_remaining (throws deadline : Nat → Bool) (check : Bool) :
    ∀ (k : Nat) (q : List Task),
      (runTier throws deadline check k q).interrupted = false →
      (runTier throws deadline check k q).remaining = []
  | _, [], _ => rfl
  | k, t :: rest, h => by
      revert h
      unfold runTier
      split
      · intro h
        cases h
      · intro h
        exact runTier_not_interrupted_remaining throws deadline check _ rest h

theorem runTier_nocheck_executes (throws deadline : Nat → Bool) (k : Nat) (q : List Task) :
    (runTier throws deadline false k q).executed = q := by
  have h1 := runTier_split throws deadline false k q
  rw [runTier_not_interrupted_remaining throws deadline false k q
    (runTier_nocheck_not_interrupted throws deadline k q)] at h1
  simpa using h1

/-- One processTaskQueue call executes a prefix of the flattened queues
(in HIGH, NORMAL, LOW order) and leaves exactly the rest queued. -/
theorem process_split (throws deadline : Nat → Bool) (k : Nat) (st : SchedState) :
    (processTaskQueue throws deadline k st).1 ++
      flattenSched (processTaskQueue throws deadline k st).2.2.1 = flattenSched st := by
  have hhx := runTier_nocheck_executes throws deadline k st.high
  have hhr := runTier_not_interrupted_remaining throws deadline false k st.high
    (runTier_nocheck_not_interrupted throws deadline k st.high)
  have hn := runTier_split throws deadline true
    (runTier throws deadline false k st.high).checksUsed st.normal
  simp only [processTaskQueue]
  split
  · simp only [flattenSched]
    rw [hhx, hhr]
    generalize hg : runTier throws deadline true
      (runTier throws deadline false k st.high).checksUsed st.normal = nR
    rw [hg] at hn
    simp only [List.nil_append, List.append_assoc]
    rw [← List.append_assoc nR.executed nR.remaining st.low, hn]
  · rename_i hni
    have hni2 : (runTier throws deadline true
        (runTier throws deadline false k st.high).checksUsed st.normal).interrupted = false :=
      Bool.eq_false_iff.mpr hni
    have hnr := runTier_not_interrupted_remaining throws deadline true _ st.normal hni2
    have hnx : (runTier throws deadline true
        (runTier throws deadline false k st.high).checksUsed st.normal).executed = st.normal := by
      have h2 := hn
      rw [hnr] at h2
      simpa using h2
    have hl := runTier_split throws deadline true
      (runTier throws deadline true
        (runTier throws deadline false k st.high).checksUsed st.normal).checksUsed st.low
    simp only [flattenSched]
    rw [hhx, hhr, hnx, hnr]
    generalize hg : runTier throws deadline true
      (runTier throws deadline true
        (runTier throws deadline false k st.high).checksUsed st.normal).checksUsed st.low = lR
    rw [hg] at hl
    simp only [List.nil_append, List.append_assoc]
    rw [hl]

/-- Every drain continuation preserves the invariant: executed tasks
followed by what is still queued is exactly what was queued at the
start. -/
theorem drainAll_split (throws deadline : Nat → Bool) :
    ∀ (fuel k : Nat) (st : SchedState),
      (drainAll throws deadline fuel k st).1 ++
        flattenSched (drainAll throws deadline fuel k st).2.2 = flattenSched st
  | 0, _, _ => rfl
  | fuel + 1, k, st => by
      simp only [drainAll]
      split
      · simp only [List.append_assoc]
        rw [drainAll_split throws deadline fuel _ _]
        exact process_split throws deadline k st
      · exact process_split throws deadline k st

theorem scheduleAll_high : ∀ (sched : List (Nat × Priority)) (st : SchedState),
    (scheduleAll st sched).high.map Task.callback =
      st.high.map Task.callback ++
        (sched.filter (fun p => p.2 == Priority.HIGH)).map Prod.fst
  | [], _ => by simp [scheduleAll]
  | (cb, p) :: rest, st => by
      show (scheduleAll (scheduleTask st cb p).2 rest).high.map Task.callback = _
      rw [scheduleAll_high rest]
      cases p <;> simp [scheduleTask, List.filter_cons]

theorem scheduleAll_normal : ∀ (sched : List (Nat × Priority)) (st : SchedState),
    (scheduleAll st sched).normal.map Task.callback =
      st.normal.map Task.callback ++
        (sched.filter (fun p => p.2 == Priority.NORMAL)).map Prod.fst
  | [], _ => by simp [scheduleAll]
  | (cb, p) :: rest, st => by
      show (scheduleAll (scheduleTask st cb p).2 rest).normal.map Task.callback = _
      rw [scheduleAll_normal rest]
      cases p <;> simp [scheduleTask, List.filter_cons]

theorem scheduleAll_low : ∀ (sched : List (Nat × Priority)) (st : SchedState),
    (scheduleAll st sched).low.map Task.callback =
      st.low.map Task.callback ++
        (sched.filter (fun p => p.2 == Priority.LOW)).map Prod.fst
  | [], _ => by simp [scheduleAll]
  | (cb, p) :: rest, st => by
      show (scheduleAll (scheduleTask st cb p).2 rest).low.map Task.callback = _
      rw [scheduleAll_low rest]
      cases p <;> simp [scheduleTask, List.filter_cons]

theorem runTier_reported (throws deadline : Nat → Bool) (check : Bool) :
    ∀ (k : Nat) (q : List Task),
      (runTier throws deadline check k q).reported =
        (runTier throws deadline check k q).executed.filter (fun t => throws t.callback)
  | _, [] => rfl
  | k, t :: rest => by
      by_cases hc : (check && deadline k) = true
      · simp [runTier, hc]
      · have ih := runTier_reported throws deadline check (if check then k + 1 else k) rest
        cases hthrow : throws t.callback <;>
          simp [runTier, hc, hthrow, ih, List.filter_cons]

/-- With a time budget that never expires, a tier runs every queued task
whether or not callbacks throw. -/
theorem runTier_deadline_false (throws : Nat → Bool) (check : Bool) :
    ∀ (k : Nat) (q : List Task),
      (runTier throws (fun _ => false) check k q).executed = q ∧
        (runTier throws (fun _ => false) check k q).remaining = [] ∧
        (runTier throws (fun _ => false) check k q).interrupted = false
  | _, [] => ⟨rfl, rfl, rfl⟩
  | k, t :: rest => by
      have ih := runTier_deadline_false throws check (if check then k + 1 else k) rest
      simp [runTier, ih.1, ih.2.1, ih.2.2]

/-! ## Claims C7, C8 -/

/-- C7: tasks scheduled at HIGH, NORMAL and LOW in any interleaved order
drain in priority order — every HIGH task (in FIFO scheduling order),
then every NORMAL task, then every LOW task — for any callback behaviour
and any budget oracle, provided the drain (with its continuations) ran to
completion. -/
theorem C7_priority_fifo_order (sched : List (Nat × Priority)) (throws deadline : Nat → Bool)
    (fuel : Nat)
    (hdone : queuesEmpty (drainAll throws deadline fuel 0 (scheduleAll initSched sched)).2.2) :
    (drainAll throws deadline fuel 0 (scheduleAll initSched sched)).1.map Task.callback =
      (sched.filter (fun p => p.2 == Priority.HIGH)).map Prod.fst ++
        (sched.filter (fun p => p.2 == Priority.NORMAL)).map Prod.fst ++
        (sched.filter (fun p => p.2 == Priority.LOW)).map Prod.fst := by
  have hsplit := drainAll_split throws deadline fuel 0 (scheduleAll initSched sched)
  obtain ⟨h1, h2, h3⟩ := hdone
  rw [show flattenSched (drainAll throws deadline fuel 0 (scheduleAll initSched sched)).2.2 = []
      from by simp [flattenSched, h1, h2, h3], List.append_nil] at hsplit
  rw [hsplit]
  simp [flattenSched, scheduleAll_high, scheduleAll_normal, scheduleAll_low, initSched]

/-- C7 witness: four tasks scheduled LOW, HIGH, NORMAL, HIGH drain as
HIGH, HIGH, NORMAL, LOW with the per-tier FIFO order preserved. -/
theorem C7_priority_fifo_order_witness :
    (drainAll (fun _ => false) (fun _ => false) 1 0
        (scheduleAll initSched
          [(10, .LOW), (11, .HIGH), (12, .NORMAL), (13, .HIGH)])).1.map Task.callback =
      ([(10, Priority.LOW), (11, .HIGH), (12, .NORMAL), (13, .HIGH)].filter
          (fun p => p.2 == Priority.HIGH)).map Prod.fst ++
        ([(10, Priority.LOW), (11, .HIGH), (12, .NORMAL), (13, .HIGH)].filter
          (fun p => p.2 == Priority.NORMAL)).map Prod.fst ++
        ([(10, Priority.LOW), (11, .HIGH), (12, .NORMAL), (13, .HIGH)].filter
          (fun p => p.2 == Priority.LOW)).map Prod.fst :=
  C7_priority_fifo_order [(10, .LOW), (11, .HIGH), (12, .NORMAL), (13, .HIGH)]
    (fun _ => false) (fun _ => false) 1 ⟨by decide, by decide, by decide⟩

/-- C8: in a drain whose frame budget does not expire, every queued task
executes exactly once regardless of which callbacks throw; the throwing
tasks are exactly the ones reported, and nothing remains queued — a
throwing task aborts neither the drain loop nor its sibling tasks. -/
theorem C8_task_errors_reported_drain_continues (throws : Nat → Bool) (k : Nat)
    (st : SchedState) :
    (processTaskQueue throws (fun _ => false) k st).1 = flattenSched st ∧
      (processTaskQueue throws (fun _ => false) k st).2.1 =
        (flattenSched st).filter (fun t => throws t.callback) ∧
      flattenSched (processTaskQueue throws (fun _ => false) k st).2.2.1 = [] := by
  have hh := runTier_deadline_false throws false k st.high
  have hn := runTier_deadline_false throws true
    (runTier throws (fun _ => false) false k st.high).checksUsed st.normal
  have hl := runTier_deadline_false throws true
    (runTier throws (fun _ => false) true
      (runTier throws (fun _ => false) false k st.high).checksUsed st.normal).checksUsed st.low
  simp only [processTaskQueue]
  split
  · rename_i hcontra
    rw [hn.2.2] at hcontra
    cases hcontra
  · refine ⟨?_, ?_, ?_⟩
    · simp [flattenSched, hh.1, hn.1, hl.1]
    · simp [flattenSched, runTier_reported, hh.1, hn.1, hl.1, List.filter_append]
    · simp [flattenSched, hh.2.1, hn.2.1, hl.2.1]

/-! ## Claims C4, C5, C6, C9 -/

/-- C4, counterexample: component 0 is mounted (producing div node 0),
then diffed against component 1 — a distinct component-function
reference.  diff does not replace: it returns the same node 0 and
performs no mutation at all (empty trace; in particular no replaceChild
and no creation of a new node), because `differentTypes` treats any two
functions as the same type. -/
theorem C4_counterexample :
    (diffComps 0 1).map (fun r => (r.1, r.2.2.trace)) = some (some 0, []) := by
  decide

/-- C4 (amended): two Elements are the same type for diff purposes when
both are intrinsic tags with equal name or both are component functions —
any two, identical reference or not (`typeof` is compared, never the
reference).  Hence for any two distinct component references rendering
same-type output, diff re-invokes the new component and updates the old
output in place: the old node is returned and nothing is replaced or
remounted. -/
theorem C4_distinct_components_update_in_place (i j : Nat) (_hne : i ≠ j) :
    differentTypes (ElType.comp i) (ElType.comp j) = false ∧
      (diffComps i j).map (fun r => (r.1, r.2.2.trace)) = some (some 0, []) :=
  ⟨rfl, rfl⟩

/-- C4 witness: the amended theorem at the two distinct component
references 0 and 1. -/
theorem C4_distinct_components_update_in_place_witness :
    differentTypes (ElType.comp 0) (ElType.comp 1) = false ∧
      (diffComps 0 1).map (fun r => (r.1, r.2.2.trace)) = some (some 0, []) :=
  C4_distinct_components_update_in_place 0 1 (by decide)

/-- C5: mounting the ul with children keyed a, b, c produces child nodes
1, 2, 3 under the ul (node 0); diffing against the reordering c, a, b
reuses all three nodes — the trace contains no node creation — and leaves
the target children in order [3, 1, 2], i.e. exactly c, a, b; the whole
mutation is one insertBefore move. -/
theorem C5_keyed_reorder_reuses_nodes :
    mountC5.map (fun r => (r.1, childNodes r.2.2.dom 0)) = some (0, [1, 2, 3]) ∧
      diffC5.map (fun r => (r.1, childNodes r.2.2.dom 0, r.2.2.trace.filter isCreateOp)) =
        some (some 0, [3, 1, 2], []) ∧
      diffC5.map (fun r => r.2.2.trace) = some [.insertBefore 0 3 1] := by
  decide

/-- C6: diffing a div carrying an id attribute and a click listener
against a value-identical element re-sets the attribute and detaches and
re-attaches the listener — three mutating DOM calls, not zero, because
updateDOMProps never compares the old and new values of a kept prop. -/
theorem C6_identical_diff_still_mutates :
    diffC6.map (fun r => r.2.2.trace) =
      some [.setAttr 0 "id" "x", .removeListener 0 "click" 5, .addListener 0 "click" 5] := by
  decide

/-- C9, counterexample: mounting a div with a function ref (handle 7)
through render.ts mount invokes the ref synchronously with the node
during the mount pass (the `refCall` sits in the mount trace between node
creation and container insertion, with no afterLayout deferral), and
unmounting performs only the node detach — the ref is never invoked with
null. -/
theorem C9_counterexample :
    (mountC9 7).map (fun r => r.2.trace) =
        some [.createElement 1 "div", .refCall 7 (some 1), .appendChild 0 1] ∧
      (unmountC9 7).map W.trace = some [.removeChild 0 1] := by
  decide

/-- C9 (amended): a function-valued ref prop is invoked synchronously
with the node by the mount path of render.ts; only the diff path
(updateDOMProps) defers the ref via afterLayout; and on unmount the ref
is not invoked with null, because unmount reads `element.ref`, a field
the element constructor never sets. -/
theorem C9_ref_sync_on_mount_deferred_on_diff (f : Nat) :
    (mountC9 f).map (fun r => r.2.trace) =
        some [.createElement 1 "div", .refCall f (some 1), .appendChild 0 1] ∧
      (updatePropsC9 f).trace = [.afterLayoutRef f 0] ∧
      (unmountC9 f).map W.trace = some [.removeChild 0 1] :=
  ⟨rfl, rfl, rfl⟩

end Helix
